import Mathlib

/-!
Shallow embedding of `src/bot.py` (a Telegram currency bot), covering the
pieces of the program that the verified properties below are about:

* the string-keyed dictionaries (`rates_cache`, `cache_time`, user settings)
  are modelled as association lists with Python's update-in-place semantics;
* JSON values returned by the rate providers are an inductive type, and the
  Python operations the code applies to them (`in`, subscripting, `.get`,
  `float(...)`) are modelled as `Except`-valued functions that record which
  Python exception class a failing operation raises;
* `CurrencyBot.get_exchange_rate` is modelled as a state-passing function
  over the two cache dictionaries, taking the list of provider outcomes
  (one per URL of `api_urls`) as an explicit argument; the `try/except`
  that suppresses `aiohttp.ClientError`, `asyncio.TimeoutError`,
  `ValueError` and `KeyError` is modelled exactly, so exception classes the
  code does not catch (`TypeError`, `AttributeError`) propagate;
* the `/rate` argument parsing, the `set_amount` dialogue step, the
  `list all` pagination arithmetic and `CurrencyBot.search_currency` are
  modelled directly from their source.

Rate values are modelled as rationals; Python `float(...)` applied to a
string is modelled by a parser for plain decimal literals (optional sign,
digits, optional single dot), which covers the literal shapes the program
and its spec exercise.
-/

namespace CurrencyBotModel

/-- Association-list lookup for a dictionary keyed by `κ`; models Python
`d[k]` / `k in d` lookup on a `dict`. -/
def lookupD {κ : Type} [DecidableEq κ] {α : Type} : List (κ × α) → κ → Option α
  | [], _ => none
  | (k, v) :: rest, key => if k = key then some v else lookupD rest key

/-- Python `d[k] = v` on a `dict`: replaces the value in place when the key
is present, otherwise appends the new binding (insertion order).  Keys of a
Python dict are unique, so updating the first occurrence is exact. -/
def upsert {κ : Type} [DecidableEq κ] {α : Type} : List (κ × α) → κ → α → List (κ × α)
  | [], k, v => [(k, v)]
  | kv :: rest, k, v => if kv.1 = k then (k, v) :: rest else kv :: upsert rest k v

/-- Exception classes that can escape the Python operations the provider
loop performs.  `clientError` stands for `aiohttp.ClientError` (including
its subclasses such as `ContentTypeError`), `timeoutError` for
`asyncio.TimeoutError`. -/
inductive PyErr : Type
  | clientError
  | timeoutError
  | valueError
  | keyError
  | typeError
  | attributeError
deriving DecidableEq, Repr

/-- The exception classes named by the `except (aiohttp.ClientError,
asyncio.TimeoutError, ValueError, KeyError)` clause at `src/bot.py:196`.
`TypeError` and `AttributeError` are not among them. -/
def caught : PyErr → Bool
  | .clientError => true
  | .timeoutError => true
  | .valueError => true
  | .keyError => true
  | .typeError => false
  | .attributeError => false

/-- JSON values as decoded by `response.json()`.  Numbers are modelled as
rationals. -/
inductive JSON : Type
  | null
  | bool (b : Bool)
  | num (q : ℚ)
  | str (s : String)
  | arr (xs : List JSON)
  | obj (kvs : List (String × JSON))

/-- Whether a JSON value equals the Python string `s` (Python `==` between
a string and a non-string value is `False`). -/
def JSON.eqStr (s : String) : JSON → Bool
  | .str t => t = s
  | _ => false

/-- Prefix test on character lists (Python string prefix). -/
def listPrefix : List Char → List Char → Bool
  | [], _ => true
  | _ :: _, [] => false
  | a :: as, b :: bs => a = b && listPrefix as bs

/-- Contiguous-substring test on character lists. -/
def listSubstr (p : List Char) : List Char → Bool
  | [] => p.isEmpty
  | c :: rest => listPrefix p (c :: rest) || listSubstr p rest

/-- Python `p in s` for strings: contiguous substring test. -/
def isSubstr (p s : String) : Bool := listSubstr p.data s.data

/-- Unicode simple uppercase of one character, as Python `str.upper()`
maps it, for the alphabets this program's comparisons can touch: ASCII,
Latin-1 (`à`–`þ`, `ÿ`), the Latin Extended-A letters whose uppercase can
occur here (`ł` → `Ł`, `ı` → `I`, `ſ` → `S`), Greek (`α`–`ω`, `ς`), and
Cyrillic — the basic blocks `а`–`я` and `ѐ`–`џ` (so `ё` → `Ё`) plus the
historic-letter block U+1C80–U+1C88 whose uppercase forms are basic
Cyrillic capitals.  Characters outside these ranges are unchanged; the
only characters of these blocks Python maps differently are the
multi-character expansions (e.g. `ß` → `"SS"`), which a character map
cannot express and which cannot affect matching against this program's
directory (no display name or code contains such an expansion). -/
def pyUpperChar (c : Char) : Char :=
  let n := c.toNat
  if 0x61 ≤ n ∧ n ≤ 0x7A then Char.ofNat (n - 32)
  else if 0xE0 ≤ n ∧ n ≤ 0xFE ∧ n ≠ 0xF7 then Char.ofNat (n - 32)
  else if n = 0xFF then Char.ofNat 0x178
  else if n = 0x131 then 'I'
  else if n = 0x142 then Char.ofNat 0x141
  else if n = 0x17F then 'S'
  else if 0x3B1 ≤ n ∧ n ≤ 0x3C9 ∧ n ≠ 0x3C2 then Char.ofNat (n - 32)
  else if n = 0x3C2 then Char.ofNat 0x3A3
  else if 0x430 ≤ n ∧ n ≤ 0x44F then Char.ofNat (n - 32)
  else if 0x450 ≤ n ∧ n ≤ 0x45F then Char.ofNat (n - 80)
  else if n = 0x1C80 then Char.ofNat 0x412
  else if n = 0x1C81 then Char.ofNat 0x414
  else if n = 0x1C82 then Char.ofNat 0x41E
  else if n = 0x1C83 then Char.ofNat 0x421
  else if n = 0x1C84 then Char.ofNat 0x422
  else if n = 0x1C85 then Char.ofNat 0x422
  else if n = 0x1C86 then Char.ofNat 0x42A
  else if n = 0x1C87 then Char.ofNat 0x462
  else if n = 0x1C88 then Char.ofNat 0xA64A
  else c

/-- Unicode simple lowercase of one character, as Python `str.lower()`
maps it, mirroring `pyUpperChar` on the same alphabets (ASCII, Latin-1
`À`–`Þ` and `Ÿ`, `Ł` → `ł`, Greek `Α`–`Ω`, Cyrillic `А`–`Я` and
`Ѐ`–`Џ`). -/
def pyLowerChar (c : Char) : Char :=
  let n := c.toNat
  if 0x41 ≤ n ∧ n ≤ 0x5A then Char.ofNat (n + 32)
  else if 0xC0 ≤ n ∧ n ≤ 0xDE ∧ n ≠ 0xD7 then Char.ofNat (n + 32)
  else if n = 0x178 then Char.ofNat 0xFF
  else if n = 0x141 then Char.ofNat 0x142
  else if 0x391 ≤ n ∧ n ≤ 0x3A9 ∧ n ≠ 0x3A2 then Char.ofNat (n + 32)
  else if 0x410 ≤ n ∧ n ≤ 0x42F then Char.ofNat (n + 32)
  else if 0x400 ≤ n ∧ n ≤ 0x40F then Char.ofNat (n + 80)
  else c

/-- Python `s.upper()`, applied character-wise via `pyUpperChar`. -/
def pyUpper (s : String) : String := ⟨s.data.map pyUpperChar⟩

/-- Python `s.lower()`, applied character-wise via `pyLowerChar`. -/
def pyLower (s : String) : String := ⟨s.data.map pyLowerChar⟩

/-- The character set Python `str.strip()` removes: the characters for
which `str.isspace()` holds (ASCII control whitespace including the
separators U+001C–U+001F, space, NEL, NBSP, and the Unicode space
block). -/
def pyIsSpace (c : Char) : Bool :=
  let n := c.toNat
  (9 ≤ n ∧ n ≤ 13) || (28 ≤ n ∧ n ≤ 31) || n = 32 || n = 0x85 || n = 0xA0 ||
    n = 0x1680 || (0x2000 ≤ n ∧ n ≤ 0x200A) || n = 0x2028 || n = 0x2029 ||
    n = 0x202F || n = 0x205F || n = 0x3000

/-- The surrounding whitespace Python `float(str)` tolerates: the Unicode
`White_Space` characters — the `pyIsSpace` set minus the separators
U+001C–U+001F, which `float` rejects. -/
def pyFloatIsSpace (c : Char) : Bool :=
  let n := c.toNat
  (9 ≤ n ∧ n ≤ 13) || n = 32 || n = 0x85 || n = 0xA0 ||
    n = 0x1680 || (0x2000 ≤ n ∧ n ≤ 0x200A) || n = 0x2028 || n = 0x2029 ||
    n = 0x202F || n = 0x205F || n = 0x3000

/-- Python `s.strip()`: drop the `str.isspace()` characters from both
ends. -/
def pyStrip (s : String) : String :=
  ⟨((s.data.dropWhile pyIsSpace).reverse.dropWhile pyIsSpace).reverse⟩

/-- The whitespace stripping `float(str)` performs before parsing. -/
def pyFloatStrip (s : String) : String :=
  ⟨((s.data.dropWhile pyFloatIsSpace).reverse.dropWhile pyFloatIsSpace).reverse⟩

/-- Python `s.replace(a, b)` for single-character `a` and `b`. -/
def pyCharReplace (s : String) (a b : Char) : String :=
  ⟨s.data.map fun c => if c = a then b else c⟩

/-- Python `key in container` where `key` is a string: membership of the
key for a dict, element equality for a list, substring for a string, and
`TypeError` for the remaining (non-iterable) values. -/
def pyIn (key : String) : JSON → Except PyErr Bool
  | .obj kvs => .ok (kvs.any (fun kv => kv.1 = key))
  | .arr xs => .ok (xs.any (JSON.eqStr key))
  | .str t => .ok (isSubstr key t)
  | _ => .error .typeError

/-- Python `container[key]` with a string key: dict lookup (raising
`KeyError` when absent); indexing a list or string by a string, or
subscripting a scalar, raises `TypeError`. -/
def pySub (d : JSON) (key : String) : Except PyErr JSON :=
  match d with
  | .obj kvs =>
    match lookupD kvs key with
    | some v => .ok v
    | none => .error .keyError
  | _ => .error .typeError

/-- Python `container.get(key, dflt)`: only dicts have `.get`; every other
value raises `AttributeError`. -/
def pyGet (d : JSON) (key : String) (dflt : JSON) : Except PyErr JSON :=
  match d with
  | .obj kvs =>
    match lookupD kvs key with
    | some v => .ok v
    | none => .ok dflt
  | _ => .error .attributeError

/-- Numeric value of a list of decimal digit characters. -/
def digitsVal (cs : List Char) : ℕ :=
  cs.foldl (fun n c => 10 * n + (c.toNat - 48)) 0

/-- Split a character list at the first dot. -/
def splitDot : List Char → List Char × Option (List Char)
  | [] => ([], none)
  | c :: rest =>
    if c = '.' then ([], some rest)
    else
      let (pre, post) := splitDot rest
      (c :: pre, post)

/-- Python `float(s)` on a plain decimal literal: optional surrounding
whitespace, optional sign, digits with at most one dot and at least one
digit; any other string raises `ValueError` (modelled as `none`). -/
def pyFloatParse (s : String) : Option ℚ :=
  let cs := (pyFloatStrip s).data
  let (sign, body) :=
    match cs with
    | '-' :: rest => ((-1 : ℚ), rest)
    | '+' :: rest => ((1 : ℚ), rest)
    | _ => ((1 : ℚ), cs)
  match splitDot body with
  | (intPart, none) =>
    if intPart ≠ [] ∧ intPart.all Char.isDigit then
      some (sign * (digitsVal intPart : ℚ))
    else none
  | (intPart, some fracPart) =>
    if (intPart ≠ [] ∨ fracPart ≠ []) ∧ (intPart ++ fracPart).all Char.isDigit then
      some (sign * ((digitsVal intPart : ℚ) + (digitsVal fracPart : ℚ) / 10 ^ fracPart.length))
    else none

/-- Python `float(v)` on a JSON value: numbers pass through, booleans are
0/1, strings are parsed (raising `ValueError` on failure), and `None`,
lists and dicts raise `TypeError`. -/
def pyFloat : JSON → Except PyErr ℚ
  | .num q => .ok q
  | .bool b => .ok (if b then 1 else 0)
  | .str s =>
    match pyFloatParse s with
    | some q => .ok q
    | none => .error .valueError
  | _ => .error .typeError

/-- Outcome of the HTTP request a provider URL receives in the loop at
`src/bot.py:169`: the request may raise `aiohttp.ClientError` or
`asyncio.TimeoutError`, or deliver a response with a status code and a
body; `body = none` models a body `response.json()` fails to decode
(`JSONDecodeError`, a `ValueError`). -/
inductive ProviderResult : Type
  | netError
  | timeout
  | response (status : ℕ) (body : Option JSON)

/-- The `if "result" in data / elif "rates" in data / elif
from_currency.lower() in data` chain of `src/bot.py:176-194`, with the
cache writes factored out (they happen exactly when the chain produces a
rate, immediately before the `return`).  `ok (some r)` means the provider
yielded rate `r`; `ok none` means the chain fell through without a rate;
`error e` means a Python exception of class `e` escaped the chain. -/
def extractRate (from_currency to_currency : String) (data : JSON) :
    Except PyErr (Option ℚ) := do
  let hasResult ← pyIn "result" data
  if hasResult then
    let v ← pySub data "result"
    let r ← pyFloat v
    return some r
  else
    let hasRates ← pyIn "rates" data
    if hasRates then
      let rates ← pyGet data "rates" (JSON.obj [])
      let hasTo ← pyIn to_currency rates
      if hasTo then
        let v ← pySub rates to_currency
        let r ← pyFloat v
        return some r
      else
        return none
    else
      let hasFrom ← pyIn (pyLower from_currency) data
      if hasFrom then
        let rates ← pyGet data (pyLower from_currency) (JSON.obj [])
        let hasTo ← pyIn (pyLower to_currency) rates
        if hasTo then
          let v ← pySub rates (pyLower to_currency)
          let r ← pyFloat v
          return some r
        else
          return none
      else
        return none

/-- One iteration of the provider loop body (`src/bot.py:170-195`) before
the `except` clause is applied: a request error raises, a non-200 status
falls through silently, an undecodable body raises `ValueError`, and a
decoded body goes through `extractRate`. -/
def tryOne (from_currency to_currency : String) : ProviderResult → Except PyErr (Option ℚ)
  | .netError => .error .clientError
  | .timeout => .error .timeoutError
  | .response status body =>
    if status = 200 then
      match body with
      | none => .error .valueError
      | some data => extractRate from_currency to_currency data
    else
      .ok none

/-- The two cache dictionaries of `CurrencyBot.__init__`
(`src/bot.py:41-42`).  Timestamps are integers (seconds). -/
structure BotState : Type where
  rates_cache : List (String × ℚ)
  cache_time : List (String × ℤ)

/-- The freshly constructed bot: both caches empty. -/
def initState : BotState := ⟨[], []⟩

/-- The `for url in api_urls` loop of `src/bot.py:169-200`, state-passing:
a provider that yields a rate writes `rates_cache[cache_key] = rate` and
`cache_time[cache_key] = current_time` and returns; an exception of a
caught class moves to the next provider; an uncaught exception propagates;
an exhausted list returns `None`. -/
def fetchLoop (st : BotState) (from_currency to_currency cache_key : String) (now : ℤ) :
    List ProviderResult → Except PyErr (Option ℚ × BotState)
  | [] => .ok (none, st)
  | p :: rest =>
    match tryOne from_currency to_currency p with
    | .ok (some rate) =>
      .ok (some rate,
        ⟨upsert st.rates_cache cache_key rate, upsert st.cache_time cache_key now⟩)
    | .ok none => fetchLoop st from_currency to_currency cache_key now rest
    | .error e =>
      if caught e then fetchLoop st from_currency to_currency cache_key now rest
      else .error e

/-- `CACHE_DURATION` (`src/bot.py:43`): five minutes, in seconds. -/
def CACHE_DURATION : ℤ := 300

/-- `CurrencyBot.get_exchange_rate` (`src/bot.py:142-200`): uppercases
both codes, short-circuits the identity pair to `1.0`, serves an unexpired
cache entry (the `self.cache_time[cache_key]` subscript raises `KeyError`
when the timestamp is missing), and otherwise runs the provider loop.
`now` is `datetime.now()` captured at `src/bot.py:154`; `providers` lists
the outcome each of the four `api_urls` would deliver. -/
def get_exchange_rate (st : BotState) (from_currency to_currency : String) (now : ℤ)
    (providers : List ProviderResult) : Except PyErr (Option ℚ × BotState) :=
  let fc := pyUpper from_currency
  let tc := pyUpper to_currency
  if fc = tc then .ok (some 1, st)
  else
    let cache_key := fc ++ "_" ++ tc
    match lookupD st.rates_cache cache_key with
    | some cached =>
      match lookupD st.cache_time cache_key with
      | none => .error .keyError
      | some ts =>
        if now - ts < CACHE_DURATION then .ok (some cached, st)
        else fetchLoop st fc tc cache_key now providers
    | none => fetchLoop st fc tc cache_key now providers

/-- Arguments of one `get_exchange_rate` call: the pair, the current time
and the provider outcomes. -/
structure Call : Type where
  from_currency : String
  to_currency : String
  now : ℤ
  providers : List ProviderResult

/-- Run a sequence of `get_exchange_rate` calls, threading the cache
state.  A call that raises leaves the state as it was (the source writes
the caches only on the success path, immediately before returning). -/
def runCalls (calls : List Call) (st : BotState) : BotState :=
  calls.foldl
    (fun s c =>
      match get_exchange_rate s c.from_currency c.to_currency c.now c.providers with
      | .ok (_, s') => s'
      | .error _ => s)
    st

/-- The per-user settings store `self.user_settings`: a dictionary mapping
a user id to a dictionary of setting values.  In the source the outer keys
are `str(user_id)`; since `str` is injective on integers the store is
modelled keyed by the integer id itself. -/
abbrev SettingsDict : Type := List (ℤ × List (String × JSON))

/-- `CurrencyBot.get_user_setting` (`src/bot.py:73-75`):
`self.user_settings.get(str(user_id), {}).get(key, default)`. -/
def get_user_setting (s : SettingsDict) (user_id : ℤ) (key : String) (dflt : JSON) : JSON :=
  match lookupD s user_id with
  | none => dflt
  | some inner =>
    match lookupD inner key with
    | none => dflt
    | some v => v

/-- `CurrencyBot.set_user_setting` (`src/bot.py:77-83`): creates the
user's record when absent, then assigns the key.  (The synchronous rewrite
of the JSON file is outside the state this development tracks.) -/
def set_user_setting (s : SettingsDict) (user_id : ℤ) (key : String) (value : JSON) :
    SettingsDict :=
  let inner :=
    match lookupD s user_id with
    | none => []
    | some m => m
  upsert s user_id (upsert inner key value)

/-- `ConversationHandler` state `SET_AMOUNT` (`src/bot.py:32`). -/
def SET_AMOUNT : ℤ := 1

/-- `ConversationHandler.END` of python-telegram-bot. -/
def CONV_END : ℤ := -1

/-- The `set_amount` dialogue handler (`src/bot.py:421-449`): replaces
commas with dots, parses a float, rejects non-positive values via the
raised-and-caught `ValueError`, stores accepted values under
`default_amount` and ends the conversation; a parse failure or rejection
re-prompts by returning `SET_AMOUNT`. -/
def set_amount (s : SettingsDict) (user_id : ℤ) (text : String) : SettingsDict × ℤ :=
  match pyFloatParse (pyCharReplace text ',' '.') with
  | none => (s, SET_AMOUNT)
  | some amount =>
    if amount ≤ 0 then (s, SET_AMOUNT)
    else (set_user_setting s user_id "default_amount" (JSON.num amount), CONV_END)

/-- The argument-format dispatch of the `/rate` handler
(`src/bot.py:518-538`): exactly three arguments parse the first as the
amount (a `ValueError` falls back to `from = args[0]`, `to = args[1]`),
exactly two arguments are the pair, and any other length takes the `else`
branch: `from = args[0]`, `to` the user's base currency.  The handler
returns before this point when `args` is empty, so the `[]` case is
unreachable; it is given the `else`-branch shape with an empty code. -/
def parse_rate_args (args : List String) (base_currency : String) (default_amount : ℚ) :
    ℚ × String × String :=
  match args with
  | [a0, a1, a2] =>
    match pyFloatParse a0 with
    | some x => (x, a1, a2)
    | none => (default_amount, a0, a1)
  | [a0, a1] => (default_amount, a0, a1)
  | [] => (default_amount, "", base_currency)
  | a0 :: _ => (default_amount, a0, base_currency)

/-- Page count of the `list all` view (`src/bot.py:709`):
`(len(currencies_list) + 49) // 50`, i.e. 50 currencies per page. -/
def total_pages (n : ℕ) : ℕ := (n + 49) / 50

/-- The clamp applied to a parsed page request (`src/bot.py:715`):
`max(1, min(page, total_pages))`. -/
def clamp_page (p : ℤ) (total : ℕ) : ℤ := max 1 (min p (total : ℤ))

/-- The `show_all` branch of `list_currencies` (`src/bot.py:706-726`):
computes the page count, clamps the requested page (`pageArg = none` when
no second argument is given or `int(...)` raises, leaving `page = 1`),
and slices `currencies_list[start_idx:end_idx]`.  Returns the displayed
page number, the page count and the displayed slice. -/
def list_all_page (entries : List (String × String)) (pageArg : Option ℤ) :
    ℤ × ℕ × List (String × String) :=
  let n := entries.length
  let total := total_pages n
  let page : ℤ :=
    match pageArg with
    | none => 1
    | some p => clamp_page p total
  let start_idx := (page - 1).toNat * 50
  let end_idx := min (start_idx + 50) n
  (page, total, (entries.drop start_idx).take (end_idx - start_idx))

/-- `CurrencyBot.get_all_currencies` (`src/bot.py:85-140`): the static
directory of 51 codes with display names, in source order. -/
def get_all_currencies : List (String × String) :=
  [("RUB", "🇷🇺 Российский рубль"),
   ("USD", "🇺🇸 Доллар США"),
   ("EUR", "🇪🇺 Евро"),
   ("GBP", "🇬🇧 Британский фунт"),
   ("CNY", "🇨🇳 Китайский юань"),
   ("JPY", "🇯🇵 Японская иена"),
   ("TRY", "🇹🇷 Турецкая лира"),
   ("INR", "🇮🇳 Индийская рупия"),
   ("BRL", "🇧🇷 Бразильский реал"),
   ("CAD", "🇨🇦 Канадский доллар"),
   ("AUD", "🇦🇺 Австралийский доллар"),
   ("CHF", "🇨🇭 Швейцарский франк"),
   ("SGD", "🇸🇬 Сингапурский доллар"),
   ("HKD", "🇭🇰 Гонконгский доллар"),
   ("KRW", "🇰🇷 Южнокорейская вона"),
   ("MXN", "🇲🇽 Мексиканский песо"),
   ("IDR", "🇮🇩 Индонезийская рупия"),
   ("THB", "🇹🇭 Тайский бат"),
   ("SAR", "🇸🇦 Саудовский риял"),
   ("AED", "🇦🇪 Дирхам ОАЭ"),
   ("PLN", "🇵🇱 Польский злотый"),
   ("CZK", "🇨🇿 Чешская крона"),
   ("SEK", "🇸🇪 Шведская крона"),
   ("NOK", "🇳🇴 Норвежская крона"),
   ("DKK", "🇩🇰 Датская крона"),
   ("HUF", "🇭🇺 Венгерский форинт"),
   ("RON", "🇷🇴 Румынский лей"),
   ("ZAR", "🇿🇦 Южноафриканский рэнд"),
   ("MYR", "🇲🇾 Малайзийский ринггит"),
   ("PHP", "🇵🇭 Филиппинское песо"),
   ("VND", "🇻🇳 Вьетнамский донг"),
   ("UAH", "🇺🇦 Украинская гривна"),
   ("KZT", "🇰🇿 Казахстанский тенге"),
   ("BYN", "🇧🇾 Белорусский рубль"),
   ("ARS", "🇦🇷 Аргентинский песо"),
   ("CLP", "🇨🇱 Чилийское песо"),
   ("COP", "🇨🇴 Колумбийское песо"),
   ("PEN", "🇵🇪 Перуанский соль"),
   ("EGP", "🇪🇬 Египетский фунт"),
   ("NGN", "🇳🇬 Нигерийская найра"),
   ("PKR", "🇵🇰 Пакистанская рупия"),
   ("BDT", "🇧🇩 Бангладешская така"),
   ("BTC", "₿ Bitcoin"),
   ("ETH", "Ξ Ethereum"),
   ("XRP", "XRP"),
   ("LTC", "Ł Litecoin"),
   ("BCH", "₿ Bitcoin Cash"),
   ("XAU", "🥇 Золото (унция)"),
   ("XAG", "🥈 Серебро (унция)"),
   ("XPT", "🥉 Платина (унция)"),
   ("XPD", "🔩 Палладий (унция)")]

/-- The match test of the search loop (`src/bot.py:215`):
`query in name.upper() or query in code`. -/
def matchesQuery (q code name : String) : Bool :=
  isSubstr q (pyUpper name) || isSubstr q code

/-- One iteration of the search loop (`src/bot.py:214-216`): add the
entry to the result dict when it matches. -/
def searchStep (q : String) (res : List (String × String)) (kv : String × String) :
    List (String × String) :=
  if matchesQuery q kv.1 kv.2 then upsert res kv.1 kv.2 else res

/-- The direct code hit seeding the result dict (`src/bot.py:210-211`):
`if query in all_currencies: results[query] = all_currencies[query]`. -/
def searchInit (q : String) : List (String × String) :=
  match lookupD get_all_currencies q with
  | some name => [(q, name)]
  | none => []

/-- `CurrencyBot.search_currency` (`src/bot.py:202-218`): uppercases and
strips the query, seeds the result dict with a direct code hit, then adds
every directory entry whose code or uppercased name contains the query.
The source resolves the directory through the module-level name `bot`,
which has no binding (the method raises `NameError` when called; see the
C9 analysis); the directory any `CurrencyBot` instance's
`get_all_currencies` returns is substituted, which is what the method's
remaining lines consume. -/
def search_currency (query : String) : List (String × String) :=
  get_all_currencies.foldl (searchStep (pyStrip (pyUpper query)))
    (searchInit (pyStrip (pyUpper query)))

/-- A provider outcome the loop body suppresses: it either falls through
without a rate, or raises an exception of one of the caught classes. -/
def skips (from_currency to_currency : String) (p : ProviderResult) : Prop :=
  tryOne from_currency to_currency p = .ok none ∨
    ∃ e, tryOne from_currency to_currency p = .error e ∧ caught e = true

/-- Keys present in `rates_cache` always carry a timestamp in
`cache_time`. -/
def cachesAligned (st : BotState) : Prop :=
  ∀ k r, lookupD st.rates_cache k = some r → ∃ ts, lookupD st.cache_time k = some ts

/-- The cache check of `src/bot.py:156-158` does not serve this call:
either the pair is absent from `rates_cache`, or its entry has aged to at
least `CACHE_DURATION`. -/
def cacheMiss (st : BotState) (key : String) (now : ℤ) : Prop :=
  lookupD st.rates_cache key = none ∨
    ∃ r ts, lookupD st.rates_cache key = some r ∧ lookupD st.cache_time key = some ts ∧
      CACHE_DURATION ≤ now - ts

/-- A sequence of `set_user_setting` mutations, applied in order. -/
def applyOps (ops : List (ℤ × String × JSON)) (s : SettingsDict) : SettingsDict :=
  ops.foldl (fun acc o => set_user_setting acc o.1 o.2.1 o.2.2) s

/-! ### Dictionary lemmas -/

theorem lookupD_upsert_self {κ α : Type} [DecidableEq κ] (d : List (κ × α)) (k : κ) (v : α) :
    lookupD (upsert d k v) k = some v := by
  induction d with
  | nil => simp [upsert, lookupD]
  | cons kv rest ih =>
    by_cases h0 : kv.1 = k
    · simp [upsert, lookupD, h0]
    · simp [upsert, lookupD, h0, ih]

theorem lookupD_upsert_other {κ α : Type} [DecidableEq κ] (d : List (κ × α)) (k : κ) (v : α)
    (key : κ) (hne : key ≠ k) : lookupD (upsert d k v) key = lookupD d key := by
  induction d with
  | nil => simp [upsert, lookupD, Ne.symm hne]
  | cons kv rest ih =>
    by_cases h0 : kv.1 = k
    · subst h0
      simp [upsert, lookupD, Ne.symm hne]
    · by_cases h1 : kv.1 = key <;> simp [upsert, lookupD, h0, h1, ih, hne]

theorem upsert_keys_mem {κ α : Type} [DecidableEq κ] (d : List (κ × α)) (k : κ) (v : α)
    (x : κ) (hx : x ∈ (upsert d k v).map Prod.fst) : x ∈ d.map Prod.fst ∨ x = k := by
  induction d with
  | nil => simpa [upsert] using hx
  | cons kv rest ih =>
    by_cases h0 : kv.1 = k
    · simp only [upsert, h0, if_pos, List.map_cons] at hx
      rcases List.mem_cons.mp hx with h | h
      · right; exact h
      · left; simp [h]
    · simp only [upsert, h0, if_neg, not_false_iff, List.map_cons] at hx
      rcases List.mem_cons.mp hx with h | h
      · left; simp [h]
      · rcases ih h with h | h
        · left; exact List.mem_cons_of_mem _ h
        · right; exact h

theorem lookupD_eq_none_iff {κ α : Type} [DecidableEq κ] (d : List (κ × α)) (k : κ) :
    lookupD d k = none ↔ k ∉ d.map Prod.fst := by
  induction d with
  | nil => simp [lookupD]
  | cons kv rest ih =>
    by_cases h0 : kv.1 = k <;> simp_all [lookupD, eq_comm]

theorem mem_of_lookupD_eq_some {κ α : Type} [DecidableEq κ] (d : List (κ × α)) (k : κ)
    (v : α) (h : lookupD d k = some v) : (k, v) ∈ d := by
  induction d with
  | nil => simp [lookupD] at h
  | cons kv rest ih =>
    by_cases h0 : kv.1 = k
    · simp only [lookupD, h0, if_pos] at h
      obtain ⟨k0, v0⟩ := kv
      cases h0
      cases h
      exact List.mem_cons_self _ _
    · simp only [lookupD, h0, if_neg, not_false_iff] at h
      exact List.mem_cons_of_mem _ (ih h)

theorem lookupD_eq_some_of_mem {κ α : Type} [DecidableEq κ] (d : List (κ × α)) (k : κ)
    (v : α) (hnd : (d.map Prod.fst).Nodup) (h : (k, v) ∈ d) : lookupD d k = some v := by
  induction d with
  | nil => simp at h
  | cons kv rest ih =>
    simp only [List.map_cons, List.nodup_cons] at hnd
    rcases List.mem_cons.mp h with h | h
    · cases h
      simp [lookupD]
    · have hk : kv.1 ≠ k := by
        intro he
        exact hnd.1 (he ▸ (List.mem_map.mpr ⟨(k, v), h, rfl⟩))
      simp only [lookupD, hk, if_neg, not_false_iff]
      exact ih hnd.2 h

theorem upsert_keys_nodup {κ α : Type} [DecidableEq κ] (d : List (κ × α)) (k : κ) (v : α)
    (hnd : (d.map Prod.fst).Nodup) : ((upsert d k v).map Prod.fst).Nodup := by
  induction d with
  | nil => simp [upsert]
  | cons kv rest ih =>
    simp only [List.map_cons, List.nodup_cons] at hnd
    by_cases h0 : kv.1 = k
    · simp only [upsert, h0, if_pos, List.map_cons, List.nodup_cons]
      exact ⟨h0 ▸ hnd.1, hnd.2⟩
    · simp only [upsert, h0, if_neg, not_false_iff, List.map_cons, List.nodup_cons]
      refine ⟨?_, ih hnd.2⟩
      intro hmem
      rcases upsert_keys_mem rest k v kv.1 hmem with h | h
      · exact hnd.1 h
      · exact h0 h

/-! ### Provider-loop lemmas -/

theorem fetchLoop_all_skip (st : BotState) (f t key : String) (now : ℤ)
    (ps : List ProviderResult) (h : ∀ q ∈ ps, skips f t q) :
    fetchLoop st f t key now ps = .ok (none, st) := by
  induction ps with
  | nil => rfl
  | cons p rest ih =>
    have hrest := ih (fun q hq => h q (List.mem_cons_of_mem _ hq))
    rcases h p (List.mem_cons_self _ _) with hp | ⟨e, hp, hc⟩
    · simp [fetchLoop, hp, hrest]
    · simp [fetchLoop, hp, hc, hrest]

theorem fetchLoop_first_success (st : BotState) (f t key : String) (now : ℤ)
    (ps1 ps2 : List ProviderResult) (p : ProviderResult) (r : ℚ)
    (hskip : ∀ q ∈ ps1, skips f t q) (hsucc : tryOne f t p = .ok (some r)) :
    fetchLoop st f t key now (ps1 ++ p :: ps2) =
      .ok (some r, ⟨upsert st.rates_cache key r, upsert st.cache_time key now⟩) := by
  induction ps1 with
  | nil => simp [fetchLoop, hsucc]
  | cons q rest ih =>
    have hrest := ih (fun q' hq' => hskip q' (List.mem_cons_of_mem _ hq'))
    rcases hskip q (List.mem_cons_self _ _) with hq | ⟨e, hq, hc⟩
    · simp [fetchLoop, hq, hrest]
    · simp [fetchLoop, hq, hc, hrest]

theorem fetchLoop_success_lookup (st : BotState) (f t key : String) (now : ℤ)
    (ps : List ProviderResult) (r : ℚ) (st' : BotState)
    (h : fetchLoop st f t key now ps = .ok (some r, st')) :
    lookupD st'.rates_cache key = some r ∧ lookupD st'.cache_time key = some now := by
  induction ps with
  | nil => simp [fetchLoop] at h
  | cons p rest ih =>
    cases htry : tryOne f t p with
    | ok v =>
      cases v with
      | some rate =>
        simp only [fetchLoop, htry] at h
        cases h
        exact ⟨lookupD_upsert_self _ _ _, lookupD_upsert_self _ _ _⟩
      | none =>
        simp only [fetchLoop, htry] at h
        exact ih h
    | error e =>
      simp only [fetchLoop, htry] at h
      by_cases hc : caught e = true
      · rw [if_pos hc] at h
        exact ih h
      · rw [if_neg hc] at h
        cases h

theorem fetchLoop_preserves_aligned (st : BotState) (f t key : String) (now : ℤ)
    (ps : List ProviderResult) (v : Option ℚ) (st' : BotState)
    (hst : cachesAligned st) (h : fetchLoop st f t key now ps = .ok (v, st')) :
    cachesAligned st' := by
  induction ps with
  | nil =>
    simp only [fetchLoop] at h
    cases h
    exact hst
  | cons p rest ih =>
    cases htry : tryOne f t p with
    | ok w =>
      cases w with
      | some rate =>
        simp only [fetchLoop, htry] at h
        cases h
        intro k r hk
        by_cases hkey : k = key
        · subst hkey
          exact ⟨now, lookupD_upsert_self _ _ _⟩
        · rw [lookupD_upsert_other _ _ _ _ hkey] at hk
          obtain ⟨ts, hts⟩ := hst k r hk
          exact ⟨ts, by rw [lookupD_upsert_other _ _ _ _ hkey]; exact hts⟩
      | none =>
        simp only [fetchLoop, htry] at h
        exact ih h
    | error e =>
      simp only [fetchLoop, htry] at h
      by_cases hc : caught e = true
      · rw [if_pos hc] at h
        exact ih h
      · rw [if_neg hc] at h
        cases h

theorem fetchLoop_ne_keyError (st : BotState) (f t key : String) (now : ℤ)
    (ps : List ProviderResult) :
    fetchLoop st f t key now ps ≠ .error .keyError := by
  induction ps with
  | nil => simp [fetchLoop]
  | cons p rest ih =>
    cases htry : tryOne f t p with
    | ok w =>
      cases w with
      | some rate => simp [fetchLoop, htry]
      | none => simp only [fetchLoop, htry]; exact ih
    | error e =>
      simp only [fetchLoop, htry]
      by_cases hc : caught e = true
      · rw [if_pos hc]; exact ih
      · rw [if_neg hc]
        intro hcontra
        cases hcontra
        simp [caught] at hc

/-! ### Exchange-rate routing lemmas -/

theorem get_exchange_rate_cache_hit (st : BotState) (f t : String) (now : ℤ)
    (ps : List ProviderResult) (r : ℚ) (ts : ℤ)
    (hne : (pyUpper f) ≠ (pyUpper t))
    (hr : lookupD st.rates_cache ((pyUpper f) ++ "_" ++ (pyUpper t)) = some r)
    (hts : lookupD st.cache_time ((pyUpper f) ++ "_" ++ (pyUpper t)) = some ts)
    (hfresh : now - ts < CACHE_DURATION) :
    get_exchange_rate st f t now ps = .ok (some r, st) := by
  simp [get_exchange_rate, hne, hr, hts, hfresh]

theorem get_exchange_rate_cache_miss (st : BotState) (f t : String) (now : ℤ)
    (ps : List ProviderResult)
    (hne : (pyUpper f) ≠ (pyUpper t))
    (hmiss : cacheMiss st ((pyUpper f) ++ "_" ++ (pyUpper t)) now) :
    get_exchange_rate st f t now ps =
      fetchLoop st (pyUpper f) (pyUpper t) ((pyUpper f) ++ "_" ++ (pyUpper t)) now ps := by
  rcases hmiss with hmiss | ⟨r, ts, hr, hts, hage⟩
  · simp [get_exchange_rate, hne, hmiss]
  · have hnl : ¬(now - ts < CACHE_DURATION) := not_lt.mpr hage
    simp [get_exchange_rate, hne, hr, hts, hnl]

theorem get_exchange_rate_ne_keyError (st : BotState) (f t : String) (now : ℤ)
    (ps : List ProviderResult) (hal : cachesAligned st) :
    get_exchange_rate st f t now ps ≠ .error .keyError := by
  by_cases hne : (pyUpper f) = (pyUpper t)
  · simp [get_exchange_rate, hne]
  · cases hr : lookupD st.rates_cache ((pyUpper f) ++ "_" ++ (pyUpper t)) with
    | none =>
      simp only [get_exchange_rate, hne, if_neg, not_false_iff, hr]
      exact fetchLoop_ne_keyError _ _ _ _ _ _
    | some r =>
      obtain ⟨ts, hts⟩ := hal _ _ hr
      simp only [get_exchange_rate, hne, if_neg, not_false_iff, hr, hts]
      by_cases hfresh : now - ts < CACHE_DURATION
      · simp [hfresh]
      · simp only [hfresh, if_neg, not_false_iff]
        exact fetchLoop_ne_keyError _ _ _ _ _ _

theorem get_exchange_rate_preserves_aligned (st : BotState) (f t : String) (now : ℤ)
    (ps : List ProviderResult) (v : Option ℚ) (st' : BotState)
    (hal : cachesAligned st)
    (h : get_exchange_rate st f t now ps = .ok (v, st')) : cachesAligned st' := by
  by_cases hne : (pyUpper f) = (pyUpper t)
  · simp only [get_exchange_rate, hne, if_pos] at h
    cases h
    exact hal
  · cases hr : lookupD st.rates_cache ((pyUpper f) ++ "_" ++ (pyUpper t)) with
    | none =>
      simp only [get_exchange_rate, hne, if_neg, not_false_iff, hr] at h
      exact fetchLoop_preserves_aligned _ _ _ _ _ _ _ _ hal h
    | some r =>
      obtain ⟨ts, hts⟩ := hal _ _ hr
      simp only [get_exchange_rate, hne, if_neg, not_false_iff, hr, hts] at h
      by_cases hfresh : now - ts < CACHE_DURATION
      · rw [if_pos hfresh] at h
        cases h
        exact hal
      · rw [if_neg hfresh] at h
        exact fetchLoop_preserves_aligned _ _ _ _ _ _ _ _ hal h

theorem runCalls_aligned (calls : List Call) (st : BotState) (hal : cachesAligned st) :
    cachesAligned (runCalls calls st) := by
  induction calls generalizing st with
  | nil => exact hal
  | cons c rest ih =>
    show cachesAligned (runCalls rest _)
    apply ih
    cases h : get_exchange_rate st c.from_currency c.to_currency c.now c.providers with
    | ok p =>
      simp only [h]
      exact get_exchange_rate_preserves_aligned _ _ _ _ _ _ _ hal (by rw [h])
    | error e =>
      simp only [h]
      exact hal

/-! ### Settings-store lemmas -/

theorem get_set_user_setting_self (s : SettingsDict) (u : ℤ) (k : String) (v : JSON)
    (d : JSON) : get_user_setting (set_user_setting s u k v) u k d = v := by
  simp only [get_user_setting, set_user_setting, lookupD_upsert_self]

theorem get_user_setting_untouched (s : SettingsDict) (u u' : ℤ) (k k' : String) (v : JSON)
    (d : JSON) (hne : ¬(u = u' ∧ k = k')) :
    get_user_setting (set_user_setting s u k v) u' k' d = get_user_setting s u' k' d := by
  by_cases hu : u' = u
  · subst hu
    have hk : k' ≠ k := by
      intro he
      exact hne ⟨rfl, he.symm⟩
    simp only [get_user_setting, set_user_setting, lookupD_upsert_self,
      lookupD_upsert_other _ _ _ _ hk]
    cases hsu : lookupD s u' with
    | none => simp [lookupD]
    | some inner => rfl
  · simp only [get_user_setting, set_user_setting, lookupD_upsert_other _ _ _ _ hu]

theorem applyOps_get_default (ops : List (ℤ × String × JSON)) (u' : ℤ) (k' : String)
    (d : JSON) (h : ∀ o ∈ ops, ¬(o.1 = u' ∧ o.2.1 = k')) :
    get_user_setting (applyOps ops []) u' k' d = d := by
  have aux : ∀ s : SettingsDict, get_user_setting s u' k' d = d →
      get_user_setting (applyOps ops s) u' k' d = d := by
    induction ops with
    | nil => exact fun s hs => hs
    | cons o rest ih =>
      intro s hs
      show get_user_setting (applyOps rest (set_user_setting s o.1 o.2.1 o.2.2)) u' k' d = d
      apply ih (fun o' ho' => h o' (List.mem_cons_of_mem _ ho'))
      rw [get_user_setting_untouched _ _ _ _ _ _ _ (h o (List.mem_cons_self _ _))]
      exact hs
  exact aux [] rfl

/-! ### Search lemmas -/

theorem listPrefix_self (l : List Char) : listPrefix l l = true := by
  induction l with
  | nil => rfl
  | cons c rest ih => simp [listPrefix, ih]

theorem isSubstr_self (s : String) : isSubstr s s = true := by
  unfold isSubstr
  cases h : s.data with
  | nil => simp [listSubstr]
  | cons c rest => simp [listSubstr, listPrefix_self]

theorem foldl_search_no_key (q : String) (l res : List (String × String)) (c : String)
    (hno : ∀ kv ∈ l, kv.1 ≠ c) :
    lookupD (l.foldl (searchStep q) res) c = lookupD res c := by
  induction l generalizing res with
  | nil => rfl
  | cons kv rest ih =>
    show lookupD (rest.foldl (searchStep q) (searchStep q res kv)) c = _
    rw [ih _ (fun kv' h' => hno kv' (List.mem_cons_of_mem _ h'))]
    unfold searchStep
    by_cases hm : matchesQuery q kv.1 kv.2
    · rw [if_pos hm]
      exact lookupD_upsert_other _ _ _ _ (fun he => hno kv (List.mem_cons_self _ _) he.symm)
    · rw [if_neg hm]

theorem foldl_search_key (q : String) (l : List (String × String))
    (res : List (String × String)) (c n : String)
    (hnd : (l.map Prod.fst).Nodup) (hmem : (c, n) ∈ l) :
    lookupD (l.foldl (searchStep q) res) c =
      if matchesQuery q c n then some n else lookupD res c := by
  induction l generalizing res with
  | nil => cases hmem
  | cons kv rest ih =>
    simp only [List.map_cons, List.nodup_cons] at hnd
    rcases List.mem_cons.mp hmem with he | hm
    · subst he
      have hno : ∀ kv' ∈ rest, kv'.1 ≠ c := by
        intro kv' h' he'
        exact hnd.1 (he' ▸ List.mem_map.mpr ⟨kv', h', rfl⟩)
      show lookupD (rest.foldl (searchStep q) (searchStep q res (c, n))) c = _
      rw [foldl_search_no_key q rest _ c hno]
      unfold searchStep
      by_cases hm : matchesQuery q c n
      · rw [if_pos hm, if_pos hm]
        exact lookupD_upsert_self _ _ _
      · rw [if_neg hm, if_neg hm]
    · have hkc : kv.1 ≠ c := by
        intro he'
        exact hnd.1 (he' ▸ List.mem_map.mpr ⟨(c, n), hm, rfl⟩)
      show lookupD (rest.foldl (searchStep q) (searchStep q res kv)) c = _
      rw [ih _ hnd.2 hm]
      by_cases hmn : matchesQuery q c n
      · rw [if_pos hmn, if_pos hmn]
      · rw [if_neg hmn, if_neg hmn]
        unfold searchStep
        by_cases hmk : matchesQuery q kv.1 kv.2
        · rw [if_pos hmk]
          exact lookupD_upsert_other _ _ _ _ (fun he' => hkc he'.symm)
        · rw [if_neg hmk]

theorem foldl_search_keys_nodup (q : String) (l res : List (String × String))
    (hnd : (res.map Prod.fst).Nodup) :
    (((l.foldl (searchStep q) res)).map Prod.fst).Nodup := by
  induction l generalizing res with
  | nil => exact hnd
  | cons kv rest ih =>
    show ((rest.foldl (searchStep q) (searchStep q res kv)).map Prod.fst).Nodup
    apply ih
    unfold searchStep
    by_cases hm : matchesQuery q kv.1 kv.2
    · rw [if_pos hm]
      exact upsert_keys_nodup _ _ _ hnd
    · rw [if_neg hm]
      exact hnd

theorem searchInit_keys_nodup (q : String) : ((searchInit q).map Prod.fst).Nodup := by
  unfold searchInit
  cases lookupD get_all_currencies q <;> simp

theorem lookupD_searchInit (q c name : String) :
    lookupD (searchInit q) c = some name ↔
      c = q ∧ lookupD get_all_currencies q = some name := by
  unfold searchInit
  cases hq : lookupD get_all_currencies q with
  | none => simp [lookupD]
  | some nm =>
    simp only [lookupD]
    constructor
    · intro h
      by_cases hc : q = c
      · subst hc
        rw [if_pos rfl] at h
        cases h
        exact ⟨rfl, rfl⟩
      · rw [if_neg hc] at h
        cases h
    · rintro ⟨rfl, h⟩
      cases h
      simp

theorem get_all_currencies_keys_nodup : (get_all_currencies.map Prod.fst).Nodup := by
  decide

/-! ### Claim theorems -/

/-- C1: for a pair that differs after uppercasing and is not served by the
cache, the provider list is queried in order: if every provider of a
prefix is suppressed (fails in one of the caught ways or yields no rate)
and the next provider yields rate `r`, the call returns `r` and caches it
under the pair's key — and the result does not depend on the providers
after the first successful one (`ps2` is arbitrary), so they are never
queried. -/
theorem C1_first_success_wins (from_currency to_currency : String) (st : BotState)
    (now : ℤ) (ps1 ps2 : List ProviderResult) (p : ProviderResult) (r : ℚ)
    (hne : (pyUpper from_currency) ≠ (pyUpper to_currency))
    (hmiss : cacheMiss st ((pyUpper from_currency) ++ "_" ++ (pyUpper to_currency)) now)
    (hskip : ∀ q ∈ ps1, skips (pyUpper from_currency) (pyUpper to_currency) q)
    (hsucc : tryOne (pyUpper from_currency) (pyUpper to_currency) p = .ok (some r)) :
    get_exchange_rate st from_currency to_currency now (ps1 ++ p :: ps2) =
      .ok (some r,
        ⟨upsert st.rates_cache ((pyUpper from_currency) ++ "_" ++ (pyUpper to_currency)) r,
         upsert st.cache_time ((pyUpper from_currency) ++ "_" ++ (pyUpper to_currency)) now⟩) := by
  rw [get_exchange_rate_cache_miss _ _ _ _ _ hne hmiss]
  exact fetchLoop_first_success _ _ _ _ _ _ _ _ _ hskip hsucc

/-- C1 witness: provider 1 raises a network error, provider 2 answers 200
with a rates table carrying EUR ↦ 9/10, providers 3 and 4 (never reached)
error out; the call returns 9/10. -/
theorem C1_first_success_wins_witness :
    get_exchange_rate initState "usd" "EUR" 0
        ([ProviderResult.netError] ++
          ProviderResult.response 200
              (some (JSON.obj [("rates", JSON.obj [("EUR", JSON.num (9 / 10))])])) ::
            [ProviderResult.netError, ProviderResult.timeout]) =
      .ok (some (9 / 10),
        ⟨upsert initState.rates_cache ((pyUpper "usd") ++ "_" ++ (pyUpper "EUR")) (9 / 10),
         upsert initState.cache_time ((pyUpper "usd") ++ "_" ++ (pyUpper "EUR")) 0⟩) := by
  apply C1_first_success_wins
  · decide
  · exact Or.inl rfl
  · intro q hq
    fin_cases hq
    exact Or.inr ⟨.clientError, rfl, rfl⟩
  · rfl

/-- C2 counterexample: a single provider answering 200 with the body
`{"result": null}` makes `get_exchange_rate` raise `TypeError` to its
caller (Python `float(None)`), because the `except` clause at
`src/bot.py:196` does not catch `TypeError`; so the claim that no
combination of provider response values can raise is false. -/
theorem C2_counterexample :
    get_exchange_rate initState "USD" "EUR" 0
        [ProviderResult.response 200 (some (JSON.obj [("result", JSON.null)]))] =
      .error .typeError := rfl

/-- C2 (amended): for a pair that differs after uppercasing and is not
served by the cache, if every provider fails in one of the handled ways
(network error, timeout, malformed body, missing key, or a string value
that does not parse as a number — the classes the `except` clause
catches), each failure is suppressed, the next provider is tried, and the
call returns the not-found value `None` without raising. -/
theorem C2_handled_failures_return_none (from_currency to_currency : String)
    (st : BotState) (now : ℤ) (ps : List ProviderResult)
    (hne : (pyUpper from_currency) ≠ (pyUpper to_currency))
    (hmiss : cacheMiss st ((pyUpper from_currency) ++ "_" ++ (pyUpper to_currency)) now)
    (hfail : ∀ q ∈ ps, skips (pyUpper from_currency) (pyUpper to_currency) q) :
    get_exchange_rate st from_currency to_currency now ps = .ok (none, st) := by
  rw [get_exchange_rate_cache_miss _ _ _ _ _ hne hmiss]
  exact fetchLoop_all_skip _ _ _ _ _ _ hfail

/-- C2 witness: all four providers fail in distinct handled ways (network
error, timeout, undecodable body, rates table missing the target code);
the call returns `None` with the caches untouched. -/
theorem C2_handled_failures_return_none_witness :
    get_exchange_rate initState "USD" "EUR" 5
        [ProviderResult.netError, ProviderResult.timeout,
         ProviderResult.response 200 none,
         ProviderResult.response 200 (some (JSON.obj [("rates", JSON.obj [])]))] =
      .ok (none, initState) := by
  apply C2_handled_failures_return_none
  · decide
  · exact Or.inl rfl
  · intro q hq
    fin_cases hq
    · exact Or.inr ⟨.clientError, rfl, rfl⟩
    · exact Or.inr ⟨.timeoutError, rfl, rfl⟩
    · exact Or.inr ⟨.valueError, rfl, rfl⟩
    · exact Or.inl rfl

/-- C3: for a non-identity pair, (1) a cache entry for the uppercased
ordered pair whose age is strictly below `CACHE_DURATION = 300` is served
as-is — the result neither depends on the provider outcomes nor changes
the state, so no network call happens; (2) an entry aged at least the TTL,
or an absent entry, routes the call to the provider loop (a fresh fetch);
(3) whenever that loop succeeds with rate `r`, the resulting state holds
`r` under the pair's key in `rates_cache` and the captured current time in
`cache_time` — the entry is overwritten. -/
theorem C3_cache_ttl (from_currency to_currency : String) (st : BotState) (now : ℤ)
    (ps : List ProviderResult)
    (hne : (pyUpper from_currency) ≠ (pyUpper to_currency)) :
    (∀ r ts,
      lookupD st.rates_cache ((pyUpper from_currency) ++ "_" ++ (pyUpper to_currency)) = some r →
      lookupD st.cache_time ((pyUpper from_currency) ++ "_" ++ (pyUpper to_currency)) = some ts →
      now - ts < CACHE_DURATION →
      get_exchange_rate st from_currency to_currency now ps = .ok (some r, st))
    ∧ (cacheMiss st ((pyUpper from_currency) ++ "_" ++ (pyUpper to_currency)) now →
      get_exchange_rate st from_currency to_currency now ps =
        fetchLoop st (pyUpper from_currency) (pyUpper to_currency)
          ((pyUpper from_currency) ++ "_" ++ (pyUpper to_currency)) now ps)
    ∧ (∀ r st',
      fetchLoop st (pyUpper from_currency) (pyUpper to_currency)
          ((pyUpper from_currency) ++ "_" ++ (pyUpper to_currency)) now ps = .ok (some r, st') →
      lookupD st'.rates_cache ((pyUpper from_currency) ++ "_" ++ (pyUpper to_currency)) = some r
      ∧ lookupD st'.cache_time ((pyUpper from_currency) ++ "_" ++ (pyUpper to_currency)) =
          some now) := by
  refine ⟨?_, ?_, ?_⟩
  · intro r ts hr hts hf
    exact get_exchange_rate_cache_hit _ _ _ _ _ _ _ hne hr hts hf
  · intro hm
    exact get_exchange_rate_cache_miss _ _ _ _ _ hne hm
  · intro r st' h
    exact fetchLoop_success_lookup _ _ _ _ _ _ _ _ h

/-- C3 witness: a 90-second-old USD→EUR entry is served unchanged even
though the sole provider would error; the same entry aged 390 seconds is
bypassed and the (empty) provider list yields `None`. -/
theorem C3_cache_ttl_witness :
    get_exchange_rate ⟨[("USD_EUR", 95)], [("USD_EUR", 10)]⟩ "USD" "EUR" 100
        [ProviderResult.netError] =
      .ok (some 95, ⟨[("USD_EUR", 95)], [("USD_EUR", 10)]⟩)
    ∧ get_exchange_rate ⟨[("USD_EUR", 95)], [("USD_EUR", 10)]⟩ "USD" "EUR" 400 [] =
      .ok (none, ⟨[("USD_EUR", 95)], [("USD_EUR", 10)]⟩) := by
  constructor
  · exact (C3_cache_ttl "USD" "EUR" _ 100 _ (by decide)).1 95 10 (by decide) (by decide)
      (by decide)
  · have h := (C3_cache_ttl "USD" "EUR" ⟨[("USD_EUR", 95)], [("USD_EUR", 10)]⟩ 400
      [] (by decide)).2.1 (Or.inr ⟨95, 10, by decide, by decide, by decide⟩)
    rw [h]
    rfl

/-- C4: in the amount dialogue, text whose comma-to-dot normalisation does
not parse as a float, or parses as a non-positive amount, leaves the
settings store unchanged and keeps the dialogue in the `SET_AMOUNT` state;
text parsing as a positive amount stores it under `default_amount` and
ends the dialogue. -/
theorem C4_set_amount (s : SettingsDict) (user_id : ℤ) (text : String) :
    (pyFloatParse (pyCharReplace text ',' '.') = none →
      set_amount s user_id text = (s, SET_AMOUNT))
    ∧ (∀ a, pyFloatParse (pyCharReplace text ',' '.') = some a → a ≤ 0 →
      set_amount s user_id text = (s, SET_AMOUNT))
    ∧ (∀ a, pyFloatParse (pyCharReplace text ',' '.') = some a → 0 < a →
      set_amount s user_id text =
        (set_user_setting s user_id "default_amount" (JSON.num a), CONV_END)
      ∧ ∀ d, get_user_setting (set_amount s user_id text).1 user_id "default_amount" d =
          JSON.num a) := by
  refine ⟨?_, ?_, ?_⟩
  · intro h
    simp [set_amount, h]
  · intro a h ha
    simp [set_amount, h, ha]
  · intro a h ha
    have hle : ¬a ≤ 0 := not_le.mpr ha
    refine ⟨by simp [set_amount, h, hle], ?_⟩
    intro d
    simp [set_amount, h, hle, get_set_user_setting_self]

/-- C4 witness: "abc" and "-5" are rejected with the store unchanged and
the dialogue still awaiting an amount; "2,5" (comma separator) is stored
as 5/2. -/
theorem C4_set_amount_witness :
    set_amount [] 7 "abc" = ([], SET_AMOUNT)
    ∧ set_amount [] 7 "-5" = ([], SET_AMOUNT)
    ∧ get_user_setting (set_amount [] 7 "2,5").1 7 "default_amount" JSON.null =
        JSON.num (5 / 2) := by
  have hm5 : pyFloatParse (pyCharReplace "-5" ',' '.') = some (-5) := by
    rw [show pyFloatParse (pyCharReplace "-5" ',' '.') =
      some ((-1 : ℚ) * ((5 : ℕ) : ℚ)) from rfl]
    norm_num
  have h25 : pyFloatParse (pyCharReplace "2,5" ',' '.') = some (5 / 2) := by
    rw [show pyFloatParse (pyCharReplace "2,5" ',' '.') =
      some ((1 : ℚ) * (((2 : ℕ) : ℚ) + ((5 : ℕ) : ℚ) / 10 ^ (1 : ℕ))) from rfl]
    norm_num
  refine ⟨(C4_set_amount [] 7 "abc").1 rfl,
    (C4_set_amount [] 7 "-5").2.1 (-5) hm5 (by norm_num),
    ((C4_set_amount [] 7 "2,5").2.2 (5 / 2) h25 (by norm_num)).2 JSON.null⟩

/-- C5: reading a user setting immediately after writing it returns the
just-written value, and after any sequence of writes none of which touches
the pair (u', k'), reading (u', k') returns the supplied default. -/
theorem C5_settings_roundtrip :
    (∀ (s : SettingsDict) (u : ℤ) (k : String) (v d : JSON),
      get_user_setting (set_user_setting s u k v) u k d = v)
    ∧ (∀ (ops : List (ℤ × String × JSON)) (u' : ℤ) (k' : String) (d : JSON),
      (∀ o ∈ ops, ¬(o.1 = u' ∧ o.2.1 = k')) →
      get_user_setting (applyOps ops []) u' k' d = d) :=
  ⟨get_set_user_setting_self, applyOps_get_default⟩

/-- C5 witness: user 5 sets a base currency and reads it back; user 6,
never written, reads back the supplied default. -/
theorem C5_settings_roundtrip_witness :
    get_user_setting (set_user_setting [] 5 "base_currency" (JSON.str "USD")) 5
        "base_currency" JSON.null = JSON.str "USD"
    ∧ get_user_setting (applyOps [(5, "base_currency", JSON.str "USD")] []) 6
        "base_currency" (JSON.str "RUB") = JSON.str "RUB" := by
  refine ⟨C5_settings_roundtrip.1 [] 5 "base_currency" (JSON.str "USD") JSON.null,
    C5_settings_roundtrip.2 [(5, "base_currency", JSON.str "USD")] 6 "base_currency"
      (JSON.str "RUB") ?_⟩
  intro o ho
  simp only [List.mem_singleton] at ho
  subst ho
  rintro ⟨h, -⟩
  exact absurd h (by decide)

/-- C6: the identity pair, in any letter case, yields exactly 1.0, with
the state returned untouched and the result independent of both the cache
contents and the provider outcomes — neither the cache nor the network is
consulted. -/
theorem C6_identity_pair (X : String) (st : BotState) (now : ℤ)
    (providers : List ProviderResult) :
    get_exchange_rate st X X now providers = .ok (some 1, st) := by
  simp [get_exchange_rate]

/-- C7: the `/rate` argument shapes: `["100", FROM, TO]` yields amount 100
with the given pair; `[FROM, TO]` yields the default amount with the given
pair; `[FROM]` yields the default amount against the user's base
currency. -/
theorem C7_rate_args (base_currency : String) (default_amount : ℚ) (f t : String) :
    parse_rate_args ["100", f, t] base_currency default_amount = (100, f, t)
    ∧ parse_rate_args [f, t] base_currency default_amount = (default_amount, f, t)
    ∧ parse_rate_args [f] base_currency default_amount =
        (default_amount, f, base_currency) := by
  have h100 : pyFloatParse "100" = some 100 := by
    rw [show pyFloatParse "100" = some ((1 : ℚ) * ((100 : ℕ) : ℚ)) from rfl]
    norm_num
  exact ⟨by simp [parse_rate_args, h100], rfl, rfl⟩

/-- C8 counterexample: a directory of exactly 50 entries — "50+" — yields
a single page, not at least two: `ceil(50/50) = 1`. -/
theorem C8_counterexample :
    (list_all_page (List.replicate 50 ("AAA", "Name")) none).2.1 = 1
    ∧ ¬2 ≤ (list_all_page (List.replicate 50 ("AAA", "Name")) none).2.1 := by
  decide

/-- C8 (amended): the page count is `ceil(n/50)` (characterised by
`50*(T-1) < n ≤ 50*T`), so with more than 50 entries — in particular the
repository's 51-entry directory — at least 2 pages are produced (with
exactly 50 entries there is a single page); every requested page number,
including 0, negatives and values beyond the last page, is clamped into
`[1, total_pages]`; and each displayed page holds at most 50 entries. -/
theorem C8_pagination (entries : List (String × String)) (p : ℤ)
    (h : 0 < entries.length) :
    (entries.length ≤ 50 * total_pages entries.length
      ∧ 50 * (total_pages entries.length - 1) < entries.length)
    ∧ (50 < entries.length → 2 ≤ total_pages entries.length)
    ∧ (1 ≤ (list_all_page entries (some p)).1
      ∧ (list_all_page entries (some p)).1 ≤ (total_pages entries.length : ℤ))
    ∧ (list_all_page entries (some p)).2.2.length ≤ 50 := by
  have hT : 1 ≤ total_pages entries.length := by
    unfold total_pages
    omega
  refine ⟨⟨?_, ?_⟩, ?_, ⟨?_, ?_⟩, ?_⟩
  · unfold total_pages
    omega
  · unfold total_pages
    omega
  · intro h50
    unfold total_pages
    omega
  · simp only [list_all_page, clamp_page]
    exact le_max_left _ _
  · simp only [list_all_page, clamp_page]
    exact max_le (by exact_mod_cast hT) (min_le_right _ _)
  · simp only [list_all_page]
    rw [List.length_take]
    apply le_trans (min_le_left _ _)
    apply le_trans (Nat.sub_le_sub_right (min_le_left _ _) _)
    omega

/-- C8 witness: the repository's 51-entry directory produces 2 pages, and
requesting page 0 still lands on a valid page (≥ 1). -/
theorem C8_pagination_witness :
    2 ≤ total_pages get_all_currencies.length
    ∧ 1 ≤ (list_all_page get_all_currencies (some 0)).1 := by
  have h := C8_pagination get_all_currencies 0 (by decide)
  exact ⟨h.2.1 (by decide), h.2.2.1.1⟩

/-- C9 (intended search semantics, modelled with the static directory the
broken `bot` reference was meant to reach): a code is in the result with
value `name` exactly when `(code, name)` is a directory entry whose
uppercased display name or code contains the uppercased stripped query as
a substring, and the result carries no duplicate codes. -/
theorem C9_search_characterization (query c name : String) :
    (lookupD (search_currency query) c = some name ↔
      ((c, name) ∈ get_all_currencies
        ∧ matchesQuery (pyStrip (pyUpper query)) c name = true))
    ∧ ((search_currency query).map Prod.fst).Nodup := by
  constructor
  · constructor
    · intro h
      unfold search_currency at h
      by_cases hc : ∃ n0, (c, n0) ∈ get_all_currencies
      · obtain ⟨n0, hn0⟩ := hc
        rw [foldl_search_key _ _ _ _ _ get_all_currencies_keys_nodup hn0] at h
        by_cases hm : matchesQuery (pyStrip (pyUpper query)) c n0 = true
        · rw [if_pos hm] at h
          cases h
          exact ⟨hn0, hm⟩
        · rw [if_neg hm] at h
          obtain ⟨rfl, hq⟩ := (lookupD_searchInit _ _ _).mp h
          have hn0' := lookupD_eq_some_of_mem _ _ _ get_all_currencies_keys_nodup hn0
          rw [hn0'] at hq
          cases hq
          exact absurd (by simp [matchesQuery, isSubstr_self]) hm
      · push_neg at hc
        have hno : ∀ kv ∈ get_all_currencies, kv.1 ≠ c := by
          intro kv hkv he
          obtain ⟨a, b⟩ := kv
          cases he
          exact hc b hkv
        rw [foldl_search_no_key _ _ _ _ hno] at h
        obtain ⟨rfl, hq⟩ := (lookupD_searchInit _ _ _).mp h
        exact absurd (mem_of_lookupD_eq_some _ _ _ hq) (hc name)
    · rintro ⟨hmem, hmatch⟩
      unfold search_currency
      rw [foldl_search_key _ _ _ _ _ get_all_currencies_keys_nodup hmem, if_pos hmatch]
  · exact foldl_search_keys_nodup _ _ _ (searchInit_keys_nodup _)

/-- C9 witness: the free-text query "bitcoin" finds the BTC entry through
its display name even though the query is not the code. -/
theorem C9_search_witness :
    lookupD (search_currency "bitcoin") "BTC" = some "₿ Bitcoin" :=
  (C9_search_characterization "bitcoin" "BTC" "₿ Bitcoin").1.mpr ⟨by decide, by decide⟩

/-- C10: after any sequence of `get_exchange_rate` calls starting from the
fresh bot, every key of `rates_cache` also has a timestamp in
`cache_time` (the two dictionaries are only written together), and
consequently no further call can fail with the `KeyError` that the
unguarded `self.cache_time[cache_key]` subscript would otherwise risk. -/
theorem C10_cache_alignment (calls : List Call) :
    cachesAligned (runCalls calls initState)
    ∧ ∀ (f t : String) (now : ℤ) (ps : List ProviderResult),
      get_exchange_rate (runCalls calls initState) f t now ps ≠ .error .keyError := by
  have hinit : cachesAligned initState := by
    intro k r hk
    simp [initState, lookupD] at hk
  have hal := runCalls_aligned calls initState hinit
  exact ⟨hal, fun f t now ps => get_exchange_rate_ne_keyError _ _ _ _ _ hal⟩

end CurrencyBotModel
